import Mathlib

/-!
StudyDino — group lifecycle and chat relay subsystem, shallowly embedded.

This file embeds the group lifecycle (create/join/leave routes), the group
reaper, the socket registry and the chat session controller of the StudyDino
server in Lean, and proves the spec's testable properties about them.

Conventions of the embedding:
* Mongo `ObjectId`s are modelled as `Nat`; `ObjectId.equals` is `Nat` equality,
  `String(objectId)` is `toString`.
* The document database is a `DB` record of lists; `findById`/`findOne` are
  `List.find?`, `save` rewrites the document with the matching id in place,
  `create` appends a document with a fresh id (`DB.nextId`).
* `Date` instants are `Int`; the message log is kept in insertion order with
  monotone `createdAt`, so a `sort({createdAt: -1})` query is `List.reverse`.
* HTTP handlers are pure functions `DB → args → Result × DB`; the spec's error
  taxonomy maps onto the HTTP statuses the routes produce (Unauthorized 401,
  Conflict 409, NotFound 404, Validation 400).
-/

namespace StudyDino

/-- One entry of a university-catalog course module (models/University.ts). -/
structure CatModule where
  moduleId : String
  name : String
  year : Nat
deriving Repr, DecidableEq

/-- A catalog course with its modules (models/University.ts). -/
structure Course where
  name : String
  modules : List CatModule
deriving Repr, DecidableEq

/-- A university catalog document (models/University.ts). -/
structure University where
  name : String
  courses : List Course
deriving Repr, DecidableEq

/-- A user document (models/User.ts).  `currentGroupId` defaults to `null`. -/
structure User where
  id : Nat
  auth0Id : String
  firstName : String
  lastName : String
  university : String
  currentGroupId : Option Nat
deriving Repr, DecidableEq

/-- The embedded module subdocument of a group (models/Group.ts). -/
structure GroupModuleDoc where
  moduleId : String
  name : String
  course : String
  university : Option String
deriving Repr, DecidableEq

/-- A group document (models/Group.ts).  The GeoJSON location is kept as the
two coordinates; `interest`/`module` are the two optional topical anchors. -/
structure Group where
  id : Nat
  name : String
  creator : Nat
  members : List Nat
  startAt : Int
  endAt : Int
  lat : Int
  lng : Int
  interest : Option String
  module : Option GroupModuleDoc
deriving Repr, DecidableEq

/-- A chat message document (models/GroupMessage.ts). -/
structure GroupMessage where
  id : Nat
  groupId : Nat
  sender : Nat
  text : String
  createdAt : Int
deriving Repr, DecidableEq

/-- The persistent store: users, groups, chat messages and the university
catalog, plus a fresh-id counter standing in for ObjectId generation. -/
structure DB where
  users : List User
  groups : List Group
  messages : List GroupMessage
  universities : List University
  nextId : Nat
deriving Repr, DecidableEq

/-- The source's `UserModel.findOne({ auth0Id })`. -/
def findUser (db : DB) (auth0Id : String) : Option User :=
  db.users.find? (fun u => u.auth0Id == auth0Id)

/-- The source's `UserModel.findById` / `populate("sender", ...)` resolution. -/
def findUserById (db : DB) (uid : Nat) : Option User :=
  db.users.find? (fun u => u.id == uid)

/-- The source's `GroupModel.findById`. -/
def findGroup (db : DB) (gid : Nat) : Option Group :=
  db.groups.find? (fun g => g.id == gid)

/-- The source's `user.save()`: rewrite the user document with the same id. -/
def saveUser (db : DB) (u : User) : DB :=
  { db with users := db.users.map (fun x => if x.id = u.id then u else x) }

/-- The source's `group.save()`: rewrite the group document with the same id. -/
def saveGroup (db : DB) (g : Group) : DB :=
  { db with groups := db.groups.map (fun x => if x.id = g.id then g else x) }

/-- The source's `getOrCreateUser` (routes/groups.ts): find by auth0Id, else create a blank
user document for that subject. -/
def getOrCreateUser (db : DB) (auth0Id : String) : User × DB :=
  match findUser db auth0Id with
  | some u => (u, db)
  | none =>
    let u : User :=
      { id := db.nextId, auth0Id := auth0Id, firstName := "", lastName := "",
        university := "", currentGroupId := none }
    (u, { db with users := db.users ++ [u], nextId := db.nextId + 1 })

/-- Result of an HTTP route: a JSON success (with the group document where the
route returns one) or `res.status(s).json({error: msg})`. -/
inductive Result where
  | created (g : Group)
  | okGroup (g : Group)
  | error (status : Nat) (msg : String)
deriving Repr, DecidableEq

/-- JavaScript `String.prototype.trim`: drop whitespace from both ends.
(Defined structurally over the character list so that concrete instances
reduce in the kernel; `String.trim` itself is built on well-founded recursion
that does not.) -/
def trimStr (s : String) : String :=
  String.mk (((s.data.dropWhile Char.isWhitespace).reverse.dropWhile Char.isWhitespace).reverse)

/-- The source's `isNonEmptyString` (routes/groups.ts): a string value that is non-blank
after trimming. -/
def isNonEmptyString : Option String → Bool
  | some s => !(trimStr s == "")
  | none => false

/-- The request body of `POST /groups` after JSON parsing; `none` models a
missing field (or, for the dates, an unparseable one — `parseDate`). -/
structure ModulePayload where
  moduleId : Option String
  name : Option String
  course : Option String
  university : Option String
deriving Repr, DecidableEq

structure CreateGroupPayload where
  name : Option String
  startAt : Option Int
  endAt : Option Int
  lat : Option Int
  lng : Option Int
  interest : Option String
  module : Option ModulePayload
deriving Repr, DecidableEq

/-- The source's `moduleExistsInUniversity` (routes/groups.ts). -/
def moduleExistsInUniversity (db : DB) (universityName courseName moduleId moduleName : String) :
    Bool :=
  match db.universities.find? (fun u => u.name == universityName) with
  | none => false
  | some university =>
    match university.courses.find? (fun c => c.name == courseName) with
    | none => false
    | some course =>
      course.modules.any (fun m => m.moduleId == moduleId && m.name == moduleName)

/-- The module-details validation and lookup stage of `POST /groups`
(routes/groups.ts lines 232-259): returns the module subdocument to store, or
the 400 error to return. -/
def validateModule (db : DB) (user : User) (mp : ModulePayload) :
    Except Result GroupModuleDoc :=
  if !(isNonEmptyString mp.moduleId && isNonEmptyString mp.name && isNonEmptyString mp.course) then
    .error (.error 400 "moduleId, name, and course are required")
  else if !(isNonEmptyString (some user.university)) then
    .error (.error 400 "User university is required for module groups")
  else if !(moduleExistsInUniversity db (trimStr user.university)
      (trimStr (mp.course.getD "")) (trimStr (mp.moduleId.getD "")) (trimStr (mp.name.getD ""))) then
    .error (.error 400 "Module not found in user's university")
  else
    .ok { moduleId := trimStr (mp.moduleId.getD ""), name := trimStr (mp.name.getD ""),
          course := trimStr (mp.course.getD ""), university := some (trimStr user.university) }

/-- The validated fields of a `POST /groups` body, ready to be stored. -/
structure CreateData where
  name : String
  startAt : Int
  endAt : Int
  lat : Int
  lng : Int
  interest : Option String
  module : Option GroupModuleDoc
deriving Repr, DecidableEq

/-- The guard-return sequence of `POST /groups` after the conflict check
(routes/groups.ts lines 200-264), in source order: name, date presence, date
order, coordinates, exactly-one-of(interest, module), module details. -/
def validateCreatePayload (db1 : DB) (user : User) (p : CreateGroupPayload) :
    Except Result CreateData :=
  let name := trimStr (p.name.getD "")
  if name == "" then .error (.error 400 "name is required")
  else
    match p.startAt, p.endAt with
    | some startAt, some endAt =>
      if endAt ≤ startAt then .error (.error 400 "endAt must be after startAt")
      else
        match p.lat, p.lng with
        | some lat, some lng =>
          let hasInterest := isNonEmptyString p.interest
          let hasModule := p.module.isSome
          if hasInterest == hasModule then
            .error (.error 400 "Provide either interest or module")
          else
            let moduleStage : Except Result (Option GroupModuleDoc) :=
              match p.module with
              | some mp => (validateModule db1 user mp).map some
              | none => .ok none
            match moduleStage with
            | .error e => .error e
            | .ok moduleData =>
              let interestText := if hasInterest then trimStr (p.interest.getD "") else ""
              .ok { name := name, startAt := startAt, endAt := endAt, lat := lat, lng := lng,
                    interest := if hasInterest then some interestText else none,
                    module := moduleData }
        | _, _ => .error (.error 400 "location lat/lng are required")
    | _, _ => .error (.error 400 "startAt and endAt are required")

/-- The source's `POST /groups` (routes/groups.ts lines 189-282).  `auth0Id = none` models a
request whose JWT middleware produced no subject. -/
def createGroup (db : DB) (auth0Id : Option String) (p : CreateGroupPayload) : Result × DB :=
  match auth0Id with
  | none => (.error 401 "Unauthorized", db)
  | some aid =>
    let ud := getOrCreateUser db aid
    let user := ud.1
    let db1 := ud.2
    if user.currentGroupId.isSome then
      (.error 409 "User already in a group", db1)
    else
      match validateCreatePayload db1 user p with
      | .error e => (e, db1)
      | .ok d =>
        let g : Group :=
          { id := db1.nextId, name := d.name, creator := user.id,
            members := [user.id], startAt := d.startAt, endAt := d.endAt,
            lat := d.lat, lng := d.lng, interest := d.interest, module := d.module }
        let db2 := { db1 with groups := db1.groups ++ [g], nextId := db1.nextId + 1 }
        let db3 := saveUser db2 { user with currentGroupId := some g.id }
        (.created g, db3)

/-- The source's `POST /groups/:id/join` (routes/groups.ts lines 284-312). -/
def joinGroup (db : DB) (auth0Id : Option String) (gid : Nat) : Result × DB :=
  match auth0Id with
  | none => (.error 401 "Unauthorized", db)
  | some aid =>
    let ud := getOrCreateUser db aid
    let user := ud.1
    let db1 := ud.2
    if user.currentGroupId.isSome then
      (.error 409 "User already in a group", db1)
    else
      match findGroup db1 gid with
      | none => (.error 404 "Group not found", db1)
      | some g =>
        if g.members.contains user.id then
          (.error 409 "User already in group", db1)
        else
          let g' := { g with members := g.members ++ [user.id] }
          let db2 := saveGroup db1 g'
          let db3 := saveUser db2 { user with currentGroupId := some g.id }
          (.okGroup g', db3)

/-- The source's `POST /groups/:id/leave` (routes/groups.ts lines 314-354). -/
def leaveGroup (db : DB) (auth0Id : Option String) (gid : Nat) : Result × DB :=
  match auth0Id with
  | none => (.error 401 "Unauthorized", db)
  | some aid =>
    match findUser db aid with
    | none => (.error 409 "User is not in a group", db)
    | some user =>
      match user.currentGroupId with
      | none => (.error 409 "User is not in a group", db)
      | some cg =>
        match findGroup db gid with
        | none =>
          (.error 404 "Group not found", saveUser db { user with currentGroupId := none })
        | some g =>
          if cg ≠ g.id then (.error 409 "User is not in this group", db)
          else if !(g.members.contains user.id) then
            (.error 409 "User is not in this group",
              saveUser db { user with currentGroupId := none })
          else if g.creator = user.id then
            (.error 400 "Creator cannot leave their group", db)
          else
            let g' := { g with members := g.members.filter (fun m => m ≠ user.id) }
            let db2 := saveGroup db g'
            let db3 := saveUser db2 { user with currentGroupId := none }
            (.okGroup g', db3)

/-- The reaper's selection condition (server.ts lines 57-65):
`endAt < now` or `members` of size 0. -/
def reapCond (now : Int) (g : Group) : Bool :=
  g.endAt < now || g.members.isEmpty

/-- The `_id`s the reaper collects for deletion (server.ts line 69). -/
def deletedIds (db : DB) (now : Int) : List Nat :=
  (db.groups.filter (reapCond now)).map (fun g => g.id)

/-- The source's `cleanupGroups` (server.ts lines 55-76): one reaper cycle at scan time
`now`.  Clears `currentGroupId` for users whose pointer is among the collected
ids, deletes those groups' messages, then the groups themselves. -/
def cleanupGroups (db : DB) (now : Int) : DB :=
  let gids := deletedIds db now
  if gids.isEmpty then db
  else
    { db with
      users := db.users.map (fun u =>
        if (match u.currentGroupId with
            | some c => gids.contains c
            | none => false) then
          { u with currentGroupId := none }
        else u),
      messages := db.messages.filter (fun m => !(gids.contains m.groupId)),
      groups := db.groups.filter (fun g => !(gids.contains g.id)) }

/-! ## Socket registry (realtime.ts)

`Map<string, Set<WebSocket>>` is modelled as an association list with unique
keys; a `Set` is a duplicate-free list in insertion order, sockets are `Nat`
handles. -/

abbrev Registry := List (String × List Nat)

/-- The source's `groupSockets.get(groupId)`. -/
def regLookup (reg : Registry) (gid : String) : Option (List Nat) :=
  (reg.find? (fun e => e.1 == gid)).map (fun e => e.2)

/-- The source's `Set.add`: a no-op when the element is already present. -/
def setAdd (s : List Nat) (x : Nat) : List Nat :=
  if s.contains x then s else s ++ [x]

/-- The source's `registerSocket` (realtime.ts lines 94-101). -/
def registerSocket (gid : String) (sock : Nat) (reg : Registry) : Registry :=
  match regLookup reg gid with
  | none => reg ++ [(gid, [sock])]
  | some _ => reg.map (fun e => if e.1 = gid then (e.1, setAdd e.2 sock) else e)

/-- The source's `unregisterSocket` (realtime.ts lines 103-110). -/
def unregisterSocket (gid : String) (sock : Nat) (reg : Registry) : Registry :=
  match regLookup reg gid with
  | none => reg
  | some s =>
    let s' := s.filter (fun x => x ≠ sock)
    if s'.isEmpty then reg.filter (fun e => e.1 ≠ gid)
    else reg.map (fun e => if e.1 = gid then (e.1, s') else e)

/-! ## Chat session controller (server.ts lines 96-191) -/

/-- The source's `[firstName, lastName].filter(Boolean).join(" ") || "Member"`
(server.ts lines 127 and 140). -/
def mkSenderName (firstName lastName : String) : String :=
  let joined := String.intercalate " " ([firstName, lastName].filter (fun s => s ≠ ""))
  if joined = "" then "Member" else joined

/-- The wire shape `{id, text, createdAt, senderId, senderName}` used in both
history and message frames; `senderId` is `null` when a history message's
sender could not be populated. -/
structure WireMessage where
  id : Nat
  text : String
  createdAt : Int
  senderId : Option Nat
  senderName : String
deriving Repr, DecidableEq

/-- A server→client frame. -/
inductive OutFrame where
  | history (messages : List WireMessage)
  | message (m : WireMessage)
deriving Repr, DecidableEq

/-- The chronological (insertion-order) message log of a group.  Under the
monotone-`createdAt` convention, `find({groupId}).sort({createdAt: -1})` is
the reverse of this list. -/
def groupMessagesChrono (db : DB) (gid : Nat) : List GroupMessage :=
  db.messages.filter (fun m => m.groupId == gid)

/-- The history query (server.ts lines 131-135): newest-first, limit 20. -/
def historyDesc (db : DB) (gid : Nat) : List GroupMessage :=
  ((groupMessagesChrono db gid).reverse).take 20

/-- Formatting of one history entry (server.ts lines 137-148), with the
`populate("sender")` lookup. -/
def formatHistoryMessage (db : DB) (m : GroupMessage) : WireMessage :=
  match findUserById db m.sender with
  | some s =>
    { id := m.id, text := m.text, createdAt := m.createdAt,
      senderId := some s.id, senderName := mkSenderName s.firstName s.lastName }
  | none =>
    { id := m.id, text := m.text, createdAt := m.createdAt,
      senderId := none, senderName := "Member" }

/-- The source's `formattedHistory` (server.ts lines 137-149): map then `.reverse()`, so the
frame is oldest-first. -/
def formattedHistory (db : DB) (gid : Nat) : List WireMessage :=
  ((historyDesc db gid).map (formatHistoryMessage db)).reverse

/-- The per-connection state captured by the `setupConnection` closure: the
resolved user, the group, and the display name computed once at setup. -/
structure ConnState where
  userId : Nat
  gid : Nat
  senderName : String
deriving Repr, DecidableEq

/-- Outcome of connection setup: closed with a close code, or established with
the frames sent during setup. -/
inductive ConnOutcome where
  | closed (code : Nat) (reason : String)
  | established (state : ConnState) (framesSent : List OutFrame)
deriving Repr, DecidableEq

/-- The frames the server sent on the connection during setup. -/
def ConnOutcome.framesSent : ConnOutcome → List OutFrame
  | .closed _ _ => []
  | .established _ fs => fs

/-- Connection setup (server.ts lines 96-151).  `verify` is the external
`jwtVerify` oracle: `none` models a verification failure (the `catch`),
`some sub` the verified payload subject coerced to a string (so `some ""`
models a payload whose `sub` was not a string).  `envOk` models the presence
of the JWKS and the Auth0 env configuration. -/
def handleConnection (verify : String → Option String) (envOk : Bool) (db : DB)
    (token groupIdParam : String) : ConnOutcome :=
  if token = "" || groupIdParam = "" || !envOk then
    .closed 1008 "Unauthorized"
  else
    match verify token with
    | none => .closed 1008 "Unauthorized"
    | some auth0Id =>
      if auth0Id = "" then .closed 1008 "Unauthorized"
      else
        match findUser db auth0Id with
        | none => .closed 1008 "Unauthorized"
        | some user =>
          match user.currentGroupId with
          | none => .closed 1008 "Unauthorized"
          | some cg =>
            if toString cg ≠ groupIdParam then .closed 1008 "Unauthorized"
            else
              let senderName := mkSenderName user.firstName user.lastName
              .established { userId := user.id, gid := cg, senderName := senderName }
                [.history (formattedHistory db cg)]

/-- An inbound socket frame after `JSON.parse`: `none` models unparseable
JSON (the `catch`); otherwise the declared `type` and the `text` field when
it is a string. -/
structure InFrame where
  type : Option String
  text : Option String
deriving Repr, DecidableEq

/-- The `socket.on("message")` handler (server.ts lines 153-180): returns the
store after the optional append and the broadcast frame, if any.  `now` is the
server-assigned `createdAt`. -/
def handleIncoming (cs : ConnState) (db : DB) (now : Int) (raw : Option InFrame) :
    DB × Option OutFrame :=
  match raw with
  | none => (db, none)
  | some f =>
    if f.type ≠ some "message" then (db, none)
    else
      match f.text with
      | none => (db, none)
      | some t =>
        let text := trimStr t
        if text = "" then (db, none)
        else
          let created : GroupMessage :=
            { id := db.nextId, groupId := cs.gid, sender := cs.userId,
              text := text, createdAt := now }
          let db' := { db with messages := db.messages ++ [created], nextId := db.nextId + 1 }
          let frame := OutFrame.message
            { id := created.id, text := created.text, createdAt := created.createdAt,
              senderId := some cs.userId, senderName := cs.senderName }
          (db', some frame)

/-! ## Operation sequences and store consistency -/

/-- One externally triggered mutation of the membership store: the three
group routes and a reaper cycle at a given scan time. -/
inductive Op where
  | create (auth0Id : Option String) (p : CreateGroupPayload)
  | join (auth0Id : Option String) (gid : Nat)
  | leave (auth0Id : Option String) (gid : Nat)
  | reap (now : Int)
deriving Repr, DecidableEq

/-- The store state after one operation (route results discarded). -/
def applyOp (db : DB) : Op → DB
  | .create aid p => (createGroup db aid p).2
  | .join aid gid => (joinGroup db aid gid).2
  | .leave aid gid => (leaveGroup db aid gid).2
  | .reap now => cleanupGroups db now

/-- The store state after a sequence of operations. -/
def applyOps (db : DB) (ops : List Op) : DB :=
  ops.foldl applyOp db

/-- The `interest` leg of the group schema's exactly-one-of validator
(models/Group.ts lines 51-61): `hasInterest` is a string interest that is
non-blank after trimming, `hasModule` is a present module subdocument. -/
def groupExactlyOne (g : Group) : Bool :=
  let hasInterest := isNonEmptyString g.interest
  let hasModule := g.module.isSome
  (hasInterest && !hasModule) || (!hasInterest && hasModule)

/-- Consistency of the persistent store: id bookkeeping (all ids below the
fresh counter, no duplicate ids), the membership invariant (a present
`currentGroupId` names an existing group holding the user), the creator
invariant, and the schema's exactly-one-of invariant. -/
def Consistent (db : DB) : Prop :=
  (∀ u ∈ db.users, u.id < db.nextId) ∧
  (db.users.map (fun u => u.id)).Nodup ∧
  (∀ g ∈ db.groups, g.id < db.nextId) ∧
  (db.groups.map (fun g => g.id)).Nodup ∧
  (∀ u ∈ db.users, ∀ cg, u.currentGroupId = some cg →
    ∃ g ∈ db.groups, g.id = cg ∧ u.id ∈ g.members) ∧
  (∀ g ∈ db.groups, g.creator ∈ g.members) ∧
  (∀ g ∈ db.groups, groupExactlyOne g = true)

instance (db : DB) : Decidable (Consistent db) := by
  unfold Consistent
  infer_instance

/-! ## Helper lemmas -/

theorem head?_dropWhile_not {α : Type} {p : α → Bool} {l : List α} {a : α}
    (h : (l.dropWhile p).head? = some a) : p a = false := by
  induction l with
  | nil => simp [List.dropWhile] at h
  | cons b t ih =>
    rw [List.dropWhile_cons] at h
    split at h
    · exact ih h
    · simp_all

theorem mem_of_mem_dropWhile {α : Type} {p : α → Bool} {l : List α} {a : α}
    (h : a ∈ l.dropWhile p) : a ∈ l :=
  (List.dropWhile_sublist p).mem h

theorem all_dropWhile_iff {α : Type} {p : α → Bool} {l : List α} :
    (∀ a ∈ l.dropWhile p, p a) ↔ ∀ a ∈ l, p a := by
  constructor
  · intro h a ha
    rw [← List.takeWhile_append_dropWhile p l] at ha
    rcases List.mem_append.1 ha with h1 | h2
    · exact List.mem_takeWhile_imp h1
    · exact h a h2
  · intro h a ha
    exact h a (mem_of_mem_dropWhile ha)

theorem trimStr_eq_empty_iff {s : String} :
    trimStr s = "" ↔ ∀ c ∈ s.data, c.isWhitespace := by
  unfold trimStr
  rw [String.ext_iff]
  show _ = ([] : List Char) ↔ _
  rw [List.reverse_eq_nil_iff, List.dropWhile_eq_nil_iff]
  constructor
  · intro h
    rw [← all_dropWhile_iff (p := Char.isWhitespace) (l := s.data)]
    intro a ha
    exact h a (List.mem_reverse.2 ha)
  · intro h a ha
    exact h a (mem_of_mem_dropWhile (List.mem_reverse.1 ha))

theorem trimStr_trim_ne_empty {s : String} (h : ¬ trimStr s = "") :
    ¬ trimStr (trimStr s) = "" := by
  intro h2
  rw [trimStr_eq_empty_iff] at h2
  cases hm : (s.data.dropWhile Char.isWhitespace).reverse.dropWhile Char.isWhitespace with
  | nil =>
    apply h
    apply String.ext
    show ((s.data.dropWhile Char.isWhitespace).reverse.dropWhile Char.isWhitespace).reverse
      = ("" : String).data
    rw [hm]
    decide
  | cons a t =>
    have hw : Char.isWhitespace a = false := by
      apply head?_dropWhile_not (l := (s.data.dropWhile Char.isWhitespace).reverse)
      rw [hm]
      rfl
    have ha : a ∈ (trimStr s).data := by
      show a ∈ ((s.data.dropWhile Char.isWhitespace).reverse.dropWhile Char.isWhitespace).reverse
      rw [hm]
      simp
    have hcontr := h2 a ha
    rw [hw] at hcontr
    exact Bool.false_ne_true hcontr

theorem isNonEmptyString_trimStr {s : String} (h : isNonEmptyString (some s) = true) :
    isNonEmptyString (some (trimStr s)) = true := by
  simp only [isNonEmptyString, Bool.not_eq_true', beq_eq_false_iff_ne, ne_eq] at h ⊢
  exact trimStr_trim_ne_empty h

/-- Saving a user never changes the id column. -/
theorem saveUser_users_map_id (db : DB) (u : User) :
    (saveUser db u).users.map (fun x => x.id) = db.users.map (fun x => x.id) := by
  simp only [saveUser, List.map_map]
  refine List.map_congr_left ?_
  intro x _
  by_cases h : x.id = u.id <;> simp [h, Function.comp]

/-- Saving a group never changes the id column. -/
theorem saveGroup_groups_map_id (db : DB) (g : Group) :
    (saveGroup db g).groups.map (fun x => x.id) = db.groups.map (fun x => x.id) := by
  simp only [saveGroup, List.map_map]
  refine List.map_congr_left ?_
  intro x _
  by_cases h : x.id = g.id <;> simp [h, Function.comp]

theorem getOrCreateUser_mem (db : DB) (aid : String) :
    (getOrCreateUser db aid).1 ∈ (getOrCreateUser db aid).2.users := by
  unfold getOrCreateUser
  cases hf : findUser db aid with
  | some u => exact List.mem_of_find?_eq_some hf
  | none => simp

theorem getOrCreateUser_groups (db : DB) (aid : String) :
    (getOrCreateUser db aid).2.groups = db.groups := by
  unfold getOrCreateUser
  cases hf : findUser db aid <;> rfl

theorem getOrCreateUser_messages (db : DB) (aid : String) :
    (getOrCreateUser db aid).2.messages = db.messages := by
  unfold getOrCreateUser
  cases hf : findUser db aid <;> rfl

theorem consistent_getOrCreateUser (db : DB) (aid : String) (h : Consistent db) :
    Consistent (getOrCreateUser db aid).2 := by
  unfold getOrCreateUser
  cases hf : findUser db aid with
  | some u => exact h
  | none =>
    obtain ⟨h1, h2, h3, h4, h5, h6, h7⟩ := h
    refine ⟨?_, ?_, ?_, ?_, ?_, ?_, ?_⟩
    · intro u hu
      rcases List.mem_append.1 hu with hu | hu
      · exact Nat.lt_succ_of_lt (h1 u hu)
      · rcases List.mem_singleton.1 hu with rfl
        exact Nat.lt_succ_self _
    · rw [List.map_append]
      rw [List.nodup_append]
      refine ⟨h2, List.nodup_singleton _, ?_⟩
      intro a ha hb
      rcases List.mem_map.1 ha with ⟨u, hu, rfl⟩
      rcases List.mem_singleton.1 hb with hb
      exact absurd hb (Nat.ne_of_lt (h1 u hu))
    · intro g hg
      exact Nat.lt_succ_of_lt (h3 g hg)
    · exact h4
    · intro u hu cg hcg
      rcases List.mem_append.1 hu with hu | hu
      · exact h5 u hu cg hcg
      · rcases List.mem_singleton.1 hu with rfl
        exact absurd hcg (by simp)
    · exact h6
    · exact h7

theorem validateModule_error_status {db : DB} {user : User} {mp : ModulePayload}
    {e : Result} (h : validateModule db user mp = .error e) :
    ∃ msg, e = .error 400 msg := by
  unfold validateModule at h
  split at h
  · cases h; exact ⟨_, rfl⟩
  · split at h
    · cases h; exact ⟨_, rfl⟩
    · split at h
      · cases h; exact ⟨_, rfl⟩
      · cases h

theorem validateCreatePayload_error_status {db1 : DB} {user : User} {p : CreateGroupPayload}
    {e : Result} (h : validateCreatePayload db1 user p = .error e) :
    ∃ msg, e = .error 400 msg := by
  simp only [validateCreatePayload] at h
  repeat' split at h
  any_goals (cases h; exact ⟨_, rfl⟩)
  any_goals cases h
  rename_i heq
  cases hpm : p.module with
  | none => rw [hpm] at heq; cases heq
  | some mp =>
    rw [hpm] at heq
    dsimp only at heq
    cases hvm : validateModule db1 user mp with
    | error e2 =>
      rw [hvm] at heq
      simp only [Except.map] at heq
      cases heq
      exact validateModule_error_status hvm
    | ok doc =>
      rw [hvm] at heq
      simp [Except.map] at heq

theorem validateCreatePayload_ok_flags {db1 : DB} {user : User} {p : CreateGroupPayload}
    {d : CreateData} (h : validateCreatePayload db1 user p = .ok d) :
    (isNonEmptyString p.interest == p.module.isSome) = false ∧
    ((isNonEmptyString d.interest && !d.module.isSome) ||
     (!isNonEmptyString d.interest && d.module.isSome)) = true := by
  simp only [validateCreatePayload] at h
  by_cases hn : (trimStr (p.name.getD "") == "") = true
  · rw [if_pos hn] at h; cases h
  · rw [if_neg hn] at h
    cases hs : p.startAt with
    | none =>
      rw [hs] at h
      cases he : p.endAt with
      | none => rw [he] at h; dsimp only at h; cases h
      | some ea => rw [he] at h; dsimp only at h; cases h
    | some sa =>
      rw [hs] at h
      cases he : p.endAt with
      | none => rw [he] at h; dsimp only at h; cases h
      | some ea =>
        rw [he] at h; dsimp only at h
        by_cases hord : ea ≤ sa
        · rw [if_pos hord] at h; cases h
        · rw [if_neg hord] at h
          cases hlat : p.lat with
          | none =>
            rw [hlat] at h
            cases hlng : p.lng with
            | none => rw [hlng] at h; dsimp only at h; cases h
            | some ln => rw [hlng] at h; dsimp only at h; cases h
          | some la =>
            rw [hlat] at h
            cases hlng : p.lng with
            | none => rw [hlng] at h; dsimp only at h; cases h
            | some ln =>
              rw [hlng] at h; dsimp only at h
              by_cases hx : (isNonEmptyString p.interest == p.module.isSome) = true
              · rw [if_pos hx] at h; cases h
              · rw [if_neg hx] at h
                cases hpm : p.module with
                | none =>
                  rw [hpm] at h
                  dsimp only at h
                  have hi : isNonEmptyString p.interest = true := by
                    rw [hpm] at hx
                    simpa using hx
                  injection h with h2
                  subst h2
                  have hsne : isNonEmptyString (some (trimStr (p.interest.getD ""))) = true := by
                    apply isNonEmptyString_trimStr
                    cases hp : p.interest with
                    | none => rw [hp] at hi; simp [isNonEmptyString] at hi
                    | some s => rw [hp] at hi; simpa using hi
                  refine ⟨by simp [hpm, hi], ?_⟩
                  rw [hi]
                  simp [hsne]
                | some mp =>
                  rw [hpm] at h
                  dsimp only at h
                  have hif : isNonEmptyString p.interest = false := by
                    rw [hpm] at hx
                    simpa using hx
                  cases hvm : validateModule db1 user mp with
                  | error e2 => rw [hvm] at h; simp [Except.map] at h
                  | ok doc =>
                    rw [hvm] at h
                    simp only [Except.map] at h
                    injection h with h2
                    subst h2
                    refine ⟨by simp [hpm, hif], ?_⟩
                    rw [hif]
                    simp [isNonEmptyString]

theorem consistent_createGroup (db : DB) (aid : Option String) (p : CreateGroupPayload)
    (h : Consistent db) : Consistent (createGroup db aid p).2 := by
  cases aid with
  | none => exact h
  | some a =>
    have hC1 := consistent_getOrCreateUser db a h
    have hmem := getOrCreateUser_mem db a
    simp only [createGroup]
    split
    · exact hC1
    · split
      · exact hC1
      · rename_i hval
        obtain ⟨g1, g2, g3, g4, g5, g6, g7⟩ := hC1
        have huid : (getOrCreateUser db a).1.id < (getOrCreateUser db a).2.nextId :=
          g1 _ hmem
        refine ⟨?_, ?_, ?_, ?_, ?_, ?_, ?_⟩
        · intro x hx
          simp only [saveUser] at hx
          rcases List.mem_map.1 hx with ⟨y, hy, rfl⟩
          by_cases hxy : y.id = (getOrCreateUser db a).1.id
          · simp only [hxy, if_pos]
            exact Nat.lt_succ_of_lt huid
          · simp only [hxy, if_neg, not_false_iff]
            exact Nat.lt_succ_of_lt (g1 y hy)
        · rw [saveUser_users_map_id]
          exact g2
        · intro gr hgr
          simp only [saveUser] at hgr
          rcases List.mem_append.1 hgr with hgr | hgr
          · exact Nat.lt_succ_of_lt (g3 gr hgr)
          · rcases List.mem_singleton.1 hgr with rfl
            exact Nat.lt_succ_self _
        · simp only [saveUser, List.map_append]
          rw [List.nodup_append]
          refine ⟨g4, List.nodup_singleton _, ?_⟩
          intro x hx hx2
          rcases List.mem_map.1 hx with ⟨gr, hgr, rfl⟩
          rcases List.mem_singleton.1 hx2 with hx2
          exact absurd hx2 (Nat.ne_of_lt (g3 gr hgr))
        · intro x hx cg hcg
          simp only [saveUser] at hx ⊢
          rcases List.mem_map.1 hx with ⟨y, hy, rfl⟩
          by_cases hxy : y.id = (getOrCreateUser db a).1.id
          · simp only [hxy, if_pos] at hcg ⊢
            simp only [Option.some.injEq] at hcg
            refine ⟨_, List.mem_append_right _ (List.mem_singleton.2 rfl), ?_, ?_⟩
            · exact hcg
            · simp
          · simp only [hxy, if_neg, not_false_iff] at hcg ⊢
            obtain ⟨grp, hgrp, hid, hmem2⟩ := g5 y hy cg hcg
            exact ⟨grp, List.mem_append_left _ hgrp, hid, hmem2⟩
        · intro gr hgr
          simp only [saveUser] at hgr
          rcases List.mem_append.1 hgr with hgr | hgr
          · exact g6 gr hgr
          · rcases List.mem_singleton.1 hgr with rfl
            simp
        · intro gr hgr
          simp only [saveUser] at hgr
          rcases List.mem_append.1 hgr with hgr | hgr
          · exact g7 gr hgr
          · rcases List.mem_singleton.1 hgr with rfl
            simpa [groupExactlyOne] using (validateCreatePayload_ok_flags hval).2

theorem consistent_joinGroup (db : DB) (aid : Option String) (gid : Nat)
    (h : Consistent db) : Consistent (joinGroup db aid gid).2 := by
  cases aid with
  | none => exact h
  | some a =>
    have hC1 := consistent_getOrCreateUser db a h
    have hmem := getOrCreateUser_mem db a
    simp only [joinGroup]
    split
    · exact hC1
    · split
      · exact hC1
      · rename_i g hfind
        split
        · exact hC1
        · rename_i hnotmem
          obtain ⟨g1, g2, g3, g4, g5, g6, g7⟩ := hC1
          have hg : g ∈ (getOrCreateUser db a).2.groups := List.mem_of_find?_eq_some hfind
          have hgid : g.id = gid := by
            have := List.find?_some hfind
            simpa using this
          refine ⟨?_, ?_, ?_, ?_, ?_, ?_, ?_⟩
          · intro x hx
            simp only [saveUser, saveGroup] at hx
            rcases List.mem_map.1 hx with ⟨y, hy, rfl⟩
            by_cases hxy : y.id = (getOrCreateUser db a).1.id
            · simp only [hxy, if_pos]
              exact g1 _ hmem
            · simp only [hxy, if_neg, not_false_iff]
              exact g1 y hy
          · simp only [saveUser, saveGroup, List.map_map]
            have heq : (getOrCreateUser db a).2.users.map
                ((fun x : User => x.id) ∘ (fun x : User =>
                  if x.id = (getOrCreateUser db a).1.id then
                    { (getOrCreateUser db a).1 with currentGroupId := some g.id } else x))
                = (getOrCreateUser db a).2.users.map (fun x => x.id) := by
              refine List.map_congr_left ?_
              intro x _
              by_cases hxy : x.id = (getOrCreateUser db a).1.id <;> simp [hxy, Function.comp]
            rw [heq]
            exact g2
          · intro gr hgr
            simp only [saveUser, saveGroup] at hgr
            rcases List.mem_map.1 hgr with ⟨y, hy, rfl⟩
            by_cases hyg : y.id = g.id
            · simp only [hyg, if_pos]
              exact g3 y hy |>.trans_eq rfl |> (fun hlt => hyg ▸ hlt)
            · simp only [hyg, if_neg, not_false_iff]
              exact g3 y hy
          · simp only [saveUser, saveGroup, List.map_map]
            have heq : (getOrCreateUser db a).2.groups.map
                ((fun x : Group => x.id) ∘ (fun x : Group =>
                  if x.id = g.id then { g with members := g.members ++ [(getOrCreateUser db a).1.id] } else x))
                = (getOrCreateUser db a).2.groups.map (fun x => x.id) := by
              refine List.map_congr_left ?_
              intro x _
              by_cases hxy : x.id = g.id <;> simp [hxy, Function.comp]
            rw [heq]
            exact g4
          · intro x hx cg hcg
            simp only [saveUser, saveGroup] at hx ⊢
            rcases List.mem_map.1 hx with ⟨y, hy, rfl⟩
            by_cases hxy : y.id = (getOrCreateUser db a).1.id
            · simp only [hxy, if_pos] at hcg ⊢
              simp only [Option.some.injEq] at hcg
              refine ⟨{ g with members := g.members ++ [(getOrCreateUser db a).1.id] },
                List.mem_map.2 ⟨g, hg, by simp⟩, ?_, ?_⟩
              · simpa using hcg
              · simp
            · simp only [hxy, if_neg, not_false_iff] at hcg ⊢
              obtain ⟨grp, hgrp, hid, hmem2⟩ := g5 y hy cg hcg
              by_cases hgg : grp.id = g.id
              · have hgeq : grp = g := List.inj_on_of_nodup_map g4 hgrp hg hgg
                subst hgeq
                refine ⟨{ grp with members := grp.members ++ [(getOrCreateUser db a).1.id] },
                  List.mem_map.2 ⟨grp, hgrp, by simp⟩, by simpa using hid, ?_⟩
                exact List.mem_append_left _ hmem2
              · refine ⟨grp, List.mem_map.2 ⟨grp, hgrp, by simp [hgg]⟩, hid, hmem2⟩
          · intro gr hgr
            simp only [saveUser, saveGroup] at hgr
            rcases List.mem_map.1 hgr with ⟨y, hy, rfl⟩
            by_cases hyg : y.id = g.id
            · have hgeq : y = g := List.inj_on_of_nodup_map g4 hy hg hyg
              subst hgeq
              simp only [if_pos rfl]
              exact List.mem_append_left _ (g6 y hy)
            · simp only [hyg, if_neg, not_false_iff]
              exact g6 y hy
          · intro gr hgr
            simp only [saveUser, saveGroup] at hgr
            rcases List.mem_map.1 hgr with ⟨y, hy, rfl⟩
            by_cases hyg : y.id = g.id
            · have hgeq : y = g := List.inj_on_of_nodup_map g4 hy hg hyg
              subst hgeq
              simp only [if_pos rfl]
              simpa [groupExactlyOne] using g7 y hy
            · simp only [hyg, if_neg, not_false_iff]
              exact g7 y hy

theorem consistent_saveUser_clear (db : DB) (u : User) (h : Consistent db) :
    Consistent (saveUser db { u with currentGroupId := none }) := by
  obtain ⟨h1, h2, h3, h4, h5, h6, h7⟩ := h
  refine ⟨?_, ?_, ?_, ?_, ?_, ?_, ?_⟩
  · intro x hx
    simp only [saveUser] at hx
    rcases List.mem_map.1 hx with ⟨y, hy, rfl⟩
    by_cases hxy : y.id = u.id
    · simp only [hxy, if_pos]
      simpa [← hxy] using h1 y hy
    · simp only [hxy, if_neg, not_false_iff]
      exact h1 y hy
  · rw [saveUser_users_map_id]
    exact h2
  · exact h3
  · exact h4
  · intro x hx cg hcg
    simp only [saveUser] at hx
    rcases List.mem_map.1 hx with ⟨y, hy, rfl⟩
    by_cases hxy : y.id = u.id
    · simp only [hxy, if_pos] at hcg
      cases hcg
    · simp only [hxy, if_neg, not_false_iff] at hcg ⊢
      exact h5 y hy cg hcg
  · exact h6
  · exact h7

theorem consistent_leaveGroup (db : DB) (aid : Option String) (gid : Nat)
    (h : Consistent db) : Consistent (leaveGroup db aid gid).2 := by
  cases aid with
  | none => exact h
  | some a =>
    simp only [leaveGroup]
    split
    · exact h
    · rename_i user hfu
      split
      · exact h
      · rename_i cg hcg
        split
        · exact consistent_saveUser_clear db user h
        · rename_i g hfg
          split
          · exact h
          · rename_i hcgid
            split
            · exact consistent_saveUser_clear db user h
            · rename_i hmem
              split
              · exact h
              · rename_i hcreator
                have huser : user ∈ db.users := List.mem_of_find?_eq_some hfu
                have hg : g ∈ db.groups := List.mem_of_find?_eq_some hfg
                have hine : user.id ∈ g.members := by
                  simp only [Bool.not_eq_true'] at hmem
                  rw [Bool.not_eq_false] at hmem
                  exact List.mem_of_elem_eq_true hmem
                obtain ⟨h1, h2, h3, h4, h5, h6, h7⟩ := h
                refine ⟨?_, ?_, ?_, ?_, ?_, ?_, ?_⟩
                · intro x hx
                  simp only [saveUser, saveGroup] at hx
                  rcases List.mem_map.1 hx with ⟨y, hy, rfl⟩
                  by_cases hxy : y.id = user.id
                  · simp only [hxy, if_pos]
                    simpa [← hxy] using h1 y hy
                  · simp only [hxy, if_neg, not_false_iff]
                    exact h1 y hy
                · simp only [saveUser, saveGroup, List.map_map]
                  have heq : db.users.map
                      ((fun x : User => x.id) ∘ (fun x : User =>
                        if x.id = user.id then { user with currentGroupId := none } else x))
                      = db.users.map (fun x => x.id) := by
                    refine List.map_congr_left ?_
                    intro x _
                    by_cases hxy : x.id = user.id <;> simp [hxy, Function.comp]
                  rw [heq]
                  exact h2
                · intro gr hgr
                  simp only [saveUser, saveGroup] at hgr
                  rcases List.mem_map.1 hgr with ⟨y, hy, rfl⟩
                  by_cases hyg : y.id = g.id
                  · simp only [hyg, if_pos]
                    simpa [← hyg] using h3 y hy
                  · simp only [hyg, if_neg, not_false_iff]
                    exact h3 y hy
                · simp only [saveUser, saveGroup, List.map_map]
                  have heq : db.groups.map
                      ((fun x : Group => x.id) ∘ (fun x : Group =>
                        if x.id = g.id then
                          { g with members := g.members.filter (fun m => m ≠ user.id) } else x))
                      = db.groups.map (fun x => x.id) := by
                    refine List.map_congr_left ?_
                    intro x _
                    by_cases hxy : x.id = g.id <;> simp [hxy, Function.comp]
                  rw [heq]
                  exact h4
                · intro x hx cg2 hcg2
                  simp only [saveUser, saveGroup] at hx ⊢
                  rcases List.mem_map.1 hx with ⟨y, hy, rfl⟩
                  by_cases hxy : y.id = user.id
                  · simp only [hxy, if_pos] at hcg2
                    cases hcg2
                  · simp only [hxy, if_neg, not_false_iff] at hcg2 ⊢
                    obtain ⟨grp, hgrp, hid, hmem2⟩ := h5 y hy cg2 hcg2
                    by_cases hgg : grp.id = g.id
                    · have hgeq : grp = g := List.inj_on_of_nodup_map h4 hgrp hg hgg
                      subst hgeq
                      refine ⟨{ grp with members := grp.members.filter (fun m => m ≠ user.id) },
                        List.mem_map.2 ⟨grp, hgrp, by simp⟩, hid, ?_⟩
                      simp only [List.mem_filter]
                      exact ⟨hmem2, by simpa using hxy⟩
                    · exact ⟨grp, List.mem_map.2 ⟨grp, hgrp, by simp [hgg]⟩, hid, hmem2⟩
                · intro gr hgr
                  simp only [saveUser, saveGroup] at hgr
                  rcases List.mem_map.1 hgr with ⟨y, hy, rfl⟩
                  by_cases hyg : y.id = g.id
                  · have hgeq : y = g := List.inj_on_of_nodup_map h4 hy hg hyg
                    subst hgeq
                    simp only [if_pos rfl]
                    show y.creator ∈ y.members.filter (fun m => m ≠ user.id)
                    rw [List.mem_filter]
                    have hcr : y.creator ≠ user.id := fun hc => hcreator (by rw [hc])
                    exact ⟨h6 y hy, by simpa using hcr⟩
                  · simp only [hyg, if_neg, not_false_iff]
                    exact h6 y hy
                · intro gr hgr
                  simp only [saveUser, saveGroup] at hgr
                  rcases List.mem_map.1 hgr with ⟨y, hy, rfl⟩
                  by_cases hyg : y.id = g.id
                  · have hgeq : y = g := List.inj_on_of_nodup_map h4 hy hg hyg
                    subst hgeq
                    simp only [if_pos rfl]
                    simpa [groupExactlyOne] using h7 y hy
                  · simp only [hyg, if_neg, not_false_iff]
                    exact h7 y hy

theorem consistent_cleanupGroups (db : DB) (now : Int) (h : Consistent db) :
    Consistent (cleanupGroups db now) := by
  obtain ⟨h1, h2, h3, h4, h5, h6, h7⟩ := h
  simp only [cleanupGroups]
  split
  · exact ⟨h1, h2, h3, h4, h5, h6, h7⟩
  · refine ⟨?_, ?_, ?_, ?_, ?_, ?_, ?_⟩
    · intro x hx
      rcases List.mem_map.1 hx with ⟨y, hy, rfl⟩
      by_cases hxy : (match y.currentGroupId with
          | some c => (deletedIds db now).contains c
          | none => false) = true
      · rw [if_pos hxy]
        exact h1 y hy
      · rw [if_neg hxy]
        exact h1 y hy
    · rw [List.map_map]
      have heq : db.users.map
          ((fun u : User => u.id) ∘ (fun u : User =>
            if (match u.currentGroupId with
                | some c => (deletedIds db now).contains c
                | none => false) = true then { u with currentGroupId := none } else u))
          = db.users.map (fun u => u.id) := by
        refine List.map_congr_left ?_
        intro x _
        simp only [Function.comp]
        split <;> rfl
      rw [heq]
      exact h2
    · intro g hg
      exact h3 g (List.mem_of_mem_filter hg)
    · exact List.Nodup.sublist ((List.filter_sublist _).map _) h4
    · intro x hx cg hcg
      rcases List.mem_map.1 hx with ⟨y, hy, rfl⟩
      by_cases hxy : (match y.currentGroupId with
          | some c => (deletedIds db now).contains c
          | none => false) = true
      · rw [if_pos hxy] at hcg
        cases hcg
      · rw [if_neg hxy] at hcg ⊢
        obtain ⟨grp, hgrp, hid, hmem2⟩ := h5 y hy cg hcg
        refine ⟨grp, List.mem_filter.2 ⟨hgrp, ?_⟩, hid, hmem2⟩
        rw [hcg] at hxy
        dsimp only at hxy
        simp only [Bool.not_eq_true] at hxy
        simp only [hid]
        simpa using hxy
    · intro g hg
      exact h6 g (List.mem_of_mem_filter hg)
    · intro g hg
      exact h7 g (List.mem_of_mem_filter hg)

theorem consistent_applyOp (db : DB) (op : Op) (h : Consistent db) :
    Consistent (applyOp db op) := by
  cases op with
  | create aid p => exact consistent_createGroup db aid p h
  | join aid gid => exact consistent_joinGroup db aid gid h
  | leave aid gid => exact consistent_leaveGroup db aid gid h
  | reap now => exact consistent_cleanupGroups db now h

theorem consistent_applyOps (db : DB) (ops : List Op) (h : Consistent db) :
    Consistent (applyOps db ops) := by
  induction ops generalizing db with
  | nil => exact h
  | cons op rest ih => exact ih _ (consistent_applyOp db op h)

/-! ## The spec's error taxonomy, keyed by the HTTP statuses the routes use -/

/-- The source's `Conflict` errors surface as HTTP 409. -/
def isConflict : Result → Bool
  | .error 409 _ => true
  | _ => false

/-- The source's `Validation` errors surface as HTTP 400. -/
def isValidation : Result → Bool
  | .error 400 _ => true
  | _ => false

/-- A `Validation` or `Conflict` error (the fail-closed classes of §7). -/
def isValidationOrConflict (r : Result) : Bool :=
  isValidation r || isConflict r

/-! ## Concrete stores used to exercise the theorems -/

/-- The empty store. -/
def emptyDB : DB :=
  { users := [], groups := [], messages := [], universities := [], nextId := 0 }

/-- A well-formed interest-group creation body. -/
def pInterest : CreateGroupPayload :=
  { name := some "Study", startAt := some 0, endAt := some 10, lat := some 1, lng := some 2,
    interest := some "maths", module := none }

/-- The store after `alice` creates an interest group (group id 1). -/
def aliceDB : DB := (createGroup emptyDB (some "alice") pInterest).2

/-! ## C1 -/

/-- C1: starting from a consistent store, after any sequence of
createGroup, joinGroup, leaveGroup and reaper cycles, every user's
`currentGroupId` is either absent or names an existing group whose members
contain that user. -/
theorem currentGroupId_invariant (db0 : DB) (h : Consistent db0) (ops : List Op)
    (u : User) (hu : u ∈ (applyOps db0 ops).users) (cg : Nat)
    (hcg : u.currentGroupId = some cg) :
    ∃ g ∈ (applyOps db0 ops).groups, g.id = cg ∧ u.id ∈ g.members := by
  obtain ⟨_, _, _, _, h5, _, _⟩ := consistent_applyOps db0 ops h
  exact h5 u hu cg hcg

/-- C1 witness: after `alice` creates a group and `bob` joins it, `bob`'s
pointer (group 1) names a group that contains him. -/
theorem currentGroupId_invariant_witness :
    ∃ g ∈ (applyOps emptyDB
      [Op.create (some "alice") pInterest, Op.join (some "bob") 1]).groups,
      g.id = 1 ∧ 2 ∈ g.members :=
  currentGroupId_invariant emptyDB (by decide)
    [Op.create (some "alice") pInterest, Op.join (some "bob") 1]
    { id := 2, auth0Id := "bob", firstName := "", lastName := "", university := "",
      currentGroupId := some 1 }
    (by decide) 1 (by decide)

/-! ## C2 -/

/-- C2 counterexample: a creator's leave request is rejected with HTTP 400
(`Validation`), not 409 (`Conflict`) as the claim states — though the store is
indeed left unchanged. -/
theorem creator_leave_status_counterexample :
    (leaveGroup aliceDB (some "alice") 1).1 = .error 400 "Creator cannot leave their group" ∧
    isConflict (leaveGroup aliceDB (some "alice") 1).1 = false ∧
    (leaveGroup aliceDB (some "alice") 1).2 = aliceDB := by
  decide

/-- C2 (amended): from a consistent store, the creator is always an
element of members after any operation sequence, and a leave request by the
creator of their current group fails with `Validation` (HTTP 400), leaving the
store unchanged. -/
theorem creator_in_members_and_creator_leave_rejected (db0 : DB) (h : Consistent db0) :
    (∀ ops, ∀ g ∈ (applyOps db0 ops).groups, g.creator ∈ g.members) ∧
    (∀ aid user g gid, findUser db0 aid = some user →
      user.currentGroupId = some gid → findGroup db0 gid = some g →
      g.creator = user.id →
      leaveGroup db0 (some aid) gid = (.error 400 "Creator cannot leave their group", db0)) := by
  constructor
  · intro ops g hg
    obtain ⟨_, _, _, _, _, h6, _⟩ := consistent_applyOps db0 ops h
    exact h6 g hg
  · intro aid user g gid hfu hcg hfg hcr
    obtain ⟨h1, h2, h3, h4, h5, h6, h7⟩ := h
    have huser : user ∈ db0.users := List.mem_of_find?_eq_some hfu
    have hgmem : g ∈ db0.groups := List.mem_of_find?_eq_some hfg
    have hgid : g.id = gid := by simpa using List.find?_some hfg
    obtain ⟨grp, hgrp, hgrpid, hmem⟩ := h5 user huser gid hcg
    have hgeq : grp = g := List.inj_on_of_nodup_map h4 hgrp hgmem (by rw [hgrpid, hgid])
    subst hgeq
    have hcont : grp.members.contains user.id = true := by simpa using hmem
    simp only [leaveGroup, hfu, hcg, hfg]
    rw [if_neg (show ¬(gid ≠ grp.id) from fun hne => hne hgid.symm)]
    rw [hcont]
    rw [if_neg (show ¬((!true) = true) by simp)]
    rw [if_pos hcr]

/-- C2 witness: concrete creator-leave rejection in `aliceDB`. -/
theorem creator_in_members_witness :
    (∀ g ∈ (applyOps aliceDB [Op.join (some "bob") 1]).groups, g.creator ∈ g.members) ∧
    leaveGroup aliceDB (some "alice") 1
      = (.error 400 "Creator cannot leave their group", aliceDB) :=
  ⟨(creator_in_members_and_creator_leave_rejected aliceDB (by decide)).1
      [Op.join (some "bob") 1],
   (creator_in_members_and_creator_leave_rejected aliceDB (by decide)).2
      "alice"
      { id := 0, auth0Id := "alice", firstName := "", lastName := "", university := "",
        currentGroupId := some 1 }
      { id := 1, name := "Study", creator := 0, members := [0], startAt := 0, endAt := 10,
        lat := 1, lng := 2, interest := some "maths", module := none }
      1 (by decide) (by decide) (by decide) (by decide)⟩

/-! ## C3 -/

/-- A createGroup body that fails validation (no fields at all). -/
def pBad : CreateGroupPayload :=
  { name := none, startAt := none, endAt := none, lat := none, lng := none,
    interest := none, module := none }

/-- C3 counterexample: a `Validation`-failing createGroup from a fresh
subject persists a new user document — the store after the failed call is not
the store before it. -/
theorem failed_create_writes_counterexample :
    isValidationOrConflict (createGroup emptyDB (some "carol") pBad).1 = true ∧
    (createGroup emptyDB (some "carol") pBad).2 ≠ emptyDB := by
  decide

/-- C3 (amended): in a consistent store, a createGroup or joinGroup call
that fails with `Validation` or `Conflict` leaves the store as it was after
the implicit first-contact creation of the requester's user record (which is
the store itself when the requester already exists), and a leaveGroup call
that fails with `Validation` or `Conflict` performs no write at all. -/
theorem failed_call_no_write (db : DB) (h : Consistent db) :
    (∀ aid p, isValidationOrConflict (createGroup db (some aid) p).1 = true →
      (createGroup db (some aid) p).2 = (getOrCreateUser db aid).2) ∧
    (∀ aid gid, isValidationOrConflict (joinGroup db (some aid) gid).1 = true →
      (joinGroup db (some aid) gid).2 = (getOrCreateUser db aid).2) ∧
    (∀ aid gid, isValidationOrConflict (leaveGroup db (some aid) gid).1 = true →
      (leaveGroup db (some aid) gid).2 = db) := by
  refine ⟨?_, ?_, ?_⟩
  · intro aid p hvc
    simp only [createGroup] at hvc ⊢
    by_cases hs : (getOrCreateUser db aid).1.currentGroupId.isSome = true
    · rw [if_pos hs]
    · rw [if_neg hs] at hvc ⊢
      cases hval : validateCreatePayload (getOrCreateUser db aid).2 (getOrCreateUser db aid).1 p with
      | error e => rfl
      | ok d =>
        rw [hval] at hvc
        dsimp only at hvc
        simp [isValidationOrConflict, isValidation, isConflict] at hvc
  · intro aid gid hvc
    simp only [joinGroup] at hvc ⊢
    by_cases hs : (getOrCreateUser db aid).1.currentGroupId.isSome = true
    · rw [if_pos hs]
    · rw [if_neg hs] at hvc ⊢
      cases hfg : findGroup (getOrCreateUser db aid).2 gid with
      | none => rfl
      | some g =>
        rw [hfg] at hvc
        dsimp only at hvc ⊢
        by_cases hc : g.members.contains (getOrCreateUser db aid).1.id = true
        · rw [if_pos hc]
        · rw [if_neg hc] at hvc
          simp [isValidationOrConflict, isValidation, isConflict] at hvc
  · intro aid gid hvc
    simp only [leaveGroup] at hvc ⊢
    cases hfu : findUser db aid with
    | none => rfl
    | some user =>
      rw [hfu] at hvc
      dsimp only at hvc ⊢
      cases hcg : user.currentGroupId with
      | none => rfl
      | some cg =>
        rw [hcg] at hvc
        dsimp only at hvc ⊢
        cases hfg : findGroup db gid with
        | none =>
          rw [hfg] at hvc
          dsimp only at hvc
          simp [isValidationOrConflict, isValidation, isConflict] at hvc
        | some g =>
          rw [hfg] at hvc
          dsimp only at hvc ⊢
          by_cases hne : cg ≠ g.id
          · rw [if_pos hne]
          · rw [if_neg hne] at hvc ⊢
            by_cases hmem : (!(g.members.contains user.id)) = true
            · exfalso
              obtain ⟨h1, h2, h3, h4, h5, h6, h7⟩ := h
              have huser : user ∈ db.users := List.mem_of_find?_eq_some hfu
              have hgmem : g ∈ db.groups := List.mem_of_find?_eq_some hfg
              obtain ⟨grp, hgrp, hgrpid, hmm⟩ := h5 user huser cg hcg
              have hcgid : cg = g.id := by
                by_contra hx
                exact hne hx
              have hgeq : grp = g :=
                List.inj_on_of_nodup_map h4 hgrp hgmem (by rw [hgrpid, hcgid])
              subst hgeq
              have hct : grp.members.contains user.id = true := by simpa using hmm
              rw [hct] at hmem
              simp at hmem
            · rw [if_neg hmem] at hvc ⊢
              by_cases hcr : g.creator = user.id
              · rw [if_pos hcr]
              · rw [if_neg hcr] at hvc
                simp [isValidationOrConflict, isValidation, isConflict] at hvc

/-- C3 witness: a conflicting second createGroup by `alice` (who already
has a group) leaves the store unchanged. -/
theorem failed_call_no_write_witness :
    isValidationOrConflict (createGroup aliceDB (some "alice") pInterest).1 = true ∧
    (createGroup aliceDB (some "alice") pInterest).2 = (getOrCreateUser aliceDB "alice").2 ∧
    (getOrCreateUser aliceDB "alice").2 = aliceDB :=
  ⟨by decide,
   (failed_call_no_write aliceDB (by decide)).1 "alice" pInterest (by decide),
   by decide⟩

/-! ## C4 -/

/-- A consistent store in which user 10 is a member of the expired group 1
while their `currentGroupId` points at the live group 2 (reachable: leave via
a stale id clears the pointer but not the membership, then join group 2). -/
def reaperDB : DB :=
  { users :=
      [ { id := 10, auth0Id := "amy", firstName := "", lastName := "", university := "",
          currentGroupId := some 2 },
        { id := 20, auth0Id := "bo", firstName := "", lastName := "", university := "",
          currentGroupId := some 2 } ],
    groups :=
      [ { id := 1, name := "old", creator := 10, members := [10], startAt := 0, endAt := 5,
          lat := 0, lng := 0, interest := some "chess", module := none },
        { id := 2, name := "new", creator := 20, members := [20, 10], startAt := 0, endAt := 100,
          lat := 0, lng := 0, interest := some "go", module := none } ],
    messages := [], universities := [], nextId := 30 }

/-- C4 counterexample: user 10 is a member of group 1, which the cycle at
time 6 deletes, yet the reaper leaves user 10's `currentGroupId` set: the code
clears pointers by `currentGroupId ∈ deleted ids`, not by membership of the
deleted groups. -/
theorem reaper_member_clear_counterexample :
    Consistent reaperDB ∧
    (∃ g ∈ reaperDB.groups, reapCond 6 g = true ∧ (10 : Nat) ∈ g.members) ∧
    findGroup (cleanupGroups reaperDB 6) 1 = none ∧
    findUserById (cleanupGroups reaperDB 6) 10 =
      some { id := 10, auth0Id := "amy", firstName := "", lastName := "", university := "",
             currentGroupId := some 2 } := by
  decide

/-- C4 (amended): in a consistent store a reaper cycle at scan time `now`
deletes exactly the groups whose `endAt` is before `now` or whose member list
is empty, clears the `currentGroupId` of exactly those users whose pointer is
among the deleted group ids, deletes exactly the messages of the deleted
groups, and changes nothing else. -/
theorem cleanupGroups_spec (db : DB) (now : Int) (h : Consistent db) :
    (cleanupGroups db now).groups = db.groups.filter (fun g => !(reapCond now g)) ∧
    (cleanupGroups db now).users = db.users.map (fun u =>
      if (match u.currentGroupId with
          | some c => (deletedIds db now).contains c
          | none => false) = true
      then { u with currentGroupId := none } else u) ∧
    (cleanupGroups db now).messages
      = db.messages.filter (fun m => !((deletedIds db now).contains m.groupId)) ∧
    (cleanupGroups db now).universities = db.universities ∧
    (cleanupGroups db now).nextId = db.nextId := by
  obtain ⟨h1, h2, h3, h4, h5, h6, h7⟩ := h
  have hcontains : ∀ g ∈ db.groups, (deletedIds db now).contains g.id = reapCond now g := by
    intro g hg
    cases hrc : reapCond now g with
    | true =>
      have hmem : g.id ∈ deletedIds db now :=
        List.mem_map.2 ⟨g, List.mem_filter.2 ⟨hg, hrc⟩, rfl⟩
      simpa using hmem
    | false =>
      by_contra hc
      rw [Bool.not_eq_false] at hc
      have hmem : g.id ∈ deletedIds db now := by simpa using hc
      rcases List.mem_map.1 hmem with ⟨g2, hg2, hid⟩
      rcases List.mem_filter.1 hg2 with ⟨hg2m, hg2c⟩
      have hgeq : g2 = g := List.inj_on_of_nodup_map h4 hg2m hg hid
      rw [hgeq] at hg2c
      rw [hg2c] at hrc
      cases hrc
  simp only [cleanupGroups]
  split
  · rename_i hempty
    have hnil : deletedIds db now = [] := by
      simpa [List.isEmpty_iff] using hempty
    have hnone : ∀ g ∈ db.groups, reapCond now g = false := by
      intro g hg
      have := hcontains g hg
      rw [hnil] at this
      simpa using this.symm
    refine ⟨?_, ?_, ?_, rfl, rfl⟩
    · symm
      rw [List.filter_eq_self]
      intro g hg
      simp [hnone g hg]
    · symm
      rw [hnil]
      have : db.users.map (fun u =>
          if (match u.currentGroupId with
              | some c => ([] : List Nat).contains c
              | none => false) = true
          then { u with currentGroupId := none } else u) = db.users.map (fun u => u) := by
        refine List.map_congr_left ?_
        intro u _
        cases u.currentGroupId <;> simp
      rw [this, List.map_id']
    · symm
      rw [hnil, List.filter_eq_self]
      intro m _
      simp
  · refine ⟨?_, rfl, rfl, rfl, rfl⟩
    refine List.filter_congr ?_
    intro g hg
    rw [hcontains g hg]

/-- C4 witness: the amended characterisation evaluated on `reaperDB` at
scan time 6. -/
theorem cleanupGroups_spec_witness :
    (cleanupGroups reaperDB 6).groups = reaperDB.groups.filter (fun g => !(reapCond 6 g)) ∧
    (cleanupGroups reaperDB 6).users = reaperDB.users.map (fun u =>
      if (match u.currentGroupId with
          | some c => (deletedIds reaperDB 6).contains c
          | none => false) = true
      then { u with currentGroupId := none } else u) ∧
    (cleanupGroups reaperDB 6).messages
      = reaperDB.messages.filter (fun m => !((deletedIds reaperDB 6).contains m.groupId)) ∧
    (cleanupGroups reaperDB 6).universities = reaperDB.universities ∧
    (cleanupGroups reaperDB 6).nextId = reaperDB.nextId :=
  cleanupGroups_spec reaperDB 6 (by decide)

/-! ## C5 -/

/-- C5: a chat connection whose parameters are bad in any of the claimed
ways — missing token or groupId, unverifiable credential, a subject with no
matching user, an absent current group, or a groupId that differs (as
identifier strings) from the user's `currentGroupId` — is closed with the
policy-violation code 1008 and no frame is ever sent on it. -/
theorem chat_auth_failure_closes (verify : String → Option String) (envOk : Bool)
    (db : DB) (token gp : String)
    (hfail : token = "" ∨ gp = "" ∨ verify token = none ∨ verify token = some "" ∨
      (∃ sub, verify token = some sub ∧ sub ≠ "" ∧
        (findUser db sub = none ∨
          (∃ u, findUser db sub = some u ∧
            (u.currentGroupId = none ∨
              (∃ cg, u.currentGroupId = some cg ∧ toString cg ≠ gp)))))) :
    handleConnection verify envOk db token gp = .closed 1008 "Unauthorized" ∧
    (handleConnection verify envOk db token gp).framesSent = [] := by
  have hc : handleConnection verify envOk db token gp = .closed 1008 "Unauthorized" := by
    simp only [handleConnection]
    rcases hfail with h | h | h | h | ⟨sub, hv, hne, hrest⟩
    · rw [if_pos (by simp [h])]
    · rw [if_pos (by simp [h])]
    · split
      · rfl
      · rw [h]
    · split
      · rfl
      · rw [h]
        dsimp only
        rw [if_pos rfl]
    · split
      · rfl
      · rw [hv]
        dsimp only
        rw [if_neg hne]
        rcases hrest with h | ⟨u, hu, hrest2⟩
        · rw [h]
        · rw [hu]
          dsimp only
          rcases hrest2 with h | ⟨cg, hcg, hgp⟩
          · rw [h]
          · rw [hcg]
            dsimp only
            rw [if_pos hgp]
  refine ⟨hc, ?_⟩
  rw [hc]
  rfl

/-- C5 witness: an unverifiable token on a configured server. -/
theorem chat_auth_failure_closes_witness :
    handleConnection (fun _ => none) true aliceDB "tok" "1" = .closed 1008 "Unauthorized" ∧
    (handleConnection (fun _ => none) true aliceDB "tok" "1").framesSent = [] :=
  chat_auth_failure_closes (fun _ => none) true aliceDB "tok" "1"
    (Or.inr (Or.inr (Or.inl rfl)))

/-! ## C6 -/

/-- The history list is a chronological suffix: the last `min 20 n` messages
of the group's log, oldest first. -/
theorem formattedHistory_eq_drop (db : DB) (gid : Nat) :
    formattedHistory db gid
      = ((groupMessagesChrono db gid).map (formatHistoryMessage db)).drop
          (((groupMessagesChrono db gid).map (formatHistoryMessage db)).length - 20) := by
  unfold formattedHistory historyDesc
  rw [List.map_take, List.map_reverse, List.take_reverse, List.reverse_reverse]

/-- C6: every established chat connection is sent exactly one frame at
setup: a history frame holding at most the 20 most recent stored messages of
the group, oldest first (a suffix of the chronological log); and the message
relay never emits a history frame. -/
theorem chat_history_exactly_once (verify : String → Option String) (envOk : Bool)
    (db : DB) (token gp : String) (cs : ConnState) (frames : List OutFrame)
    (h : handleConnection verify envOk db token gp = .established cs frames) :
    frames = [.history (formattedHistory db cs.gid)] ∧
    (formattedHistory db cs.gid).length ≤ 20 ∧
    formattedHistory db cs.gid
      = ((groupMessagesChrono db cs.gid).map (formatHistoryMessage db)).drop
          (((groupMessagesChrono db cs.gid).map (formatHistoryMessage db)).length - 20) ∧
    (∀ cs2 db2 now raw L, (handleIncoming cs2 db2 now raw).2 ≠ some (OutFrame.history L)) := by
  have hframes : frames = [.history (formattedHistory db cs.gid)] := by
    simp only [handleConnection] at h
    split at h
    · cases h
    · split at h
      · cases h
      · split at h
        · cases h
        · split at h
          · cases h
          · split at h
            · cases h
            · split at h
              · cases h
              · injection h with hcs hfr
                subst hcs
                exact hfr.symm
  refine ⟨hframes, ?_, formattedHistory_eq_drop db cs.gid, ?_⟩
  · unfold formattedHistory historyDesc
    rw [List.length_reverse, List.length_map]
    exact List.length_take_le _ _
  · intro cs2 db2 now raw L
    simp only [handleIncoming]
    cases raw with
    | none => simp
    | some f =>
      repeat' split
      all_goals simp

/-- A concrete chat store: `Ada` is in group 1, which has one stored message. -/
def chatDB : DB :=
  { users := [ { id := 0, auth0Id := "alice", firstName := "Ada", lastName := "",
                 university := "", currentGroupId := some 1 } ],
    groups := [ { id := 1, name := "Study", creator := 0, members := [0], startAt := 0,
                  endAt := 10, lat := 0, lng := 0, interest := some "maths", module := none } ],
    messages := [ { id := 2, groupId := 1, sender := 0, text := "hi", createdAt := 3 } ],
    universities := [], nextId := 5 }

/-- The credential oracle accepting exactly the token `tok` for `alice`. -/
def verifyEx : String → Option String := fun t => if t = "tok" then some "alice" else none

/-- The wire form of the one stored message of `chatDB`. -/
def wireHi : WireMessage :=
  { id := 2, text := "hi", createdAt := 3, senderId := some 0, senderName := "Ada" }

/-- C6 witness: the concrete connection to `chatDB` receives exactly the
one-message history frame. -/
theorem chat_history_exactly_once_witness :
    ([OutFrame.history [wireHi]] : List OutFrame) = [.history (formattedHistory chatDB 1)] ∧
    (formattedHistory chatDB 1).length ≤ 20 :=
  ⟨(chat_history_exactly_once verifyEx true chatDB "tok" "1"
      { userId := 0, gid := 1, senderName := "Ada" }
      [.history [wireHi]] (by decide)).1,
   (chat_history_exactly_once verifyEx true chatDB "tok" "1"
      { userId := 0, gid := 1, senderName := "Ada" }
      [.history [wireHi]] (by decide)).2.1⟩

/-! ## C10 -/

/-- C10: the sender display name is computed once at connection setup from
the user document read at that moment (with `Member` as the all-blank
fallback), and every message frame relayed on that connection reuses it
unchanged, whatever the store contains at message time. -/
theorem sender_name_fixed_at_setup (verify : String → Option String) (envOk : Bool)
    (db : DB) (token gp : String) (cs : ConnState) (frames : List OutFrame)
    (h : handleConnection verify envOk db token gp = .established cs frames) :
    (∃ sub u, verify token = some sub ∧ findUser db sub = some u ∧
      cs.senderName = mkSenderName u.firstName u.lastName) ∧
    mkSenderName "" "" = "Member" ∧
    (∀ db2 now raw db3 m,
      handleIncoming cs db2 now raw = (db3, some (OutFrame.message m)) →
      m.senderName = cs.senderName ∧ m.senderId = some cs.userId) := by
  refine ⟨?_, by decide, ?_⟩
  · simp only [handleConnection] at h
    split at h
    · cases h
    · cases hv : verify token with
      | none => rw [hv] at h; cases h
      | some sub =>
        rw [hv] at h
        dsimp only at h
        by_cases hsub : sub = ""
        · rw [if_pos hsub] at h; cases h
        · rw [if_neg hsub] at h
          cases hfu : findUser db sub with
          | none => rw [hfu] at h; cases h
          | some u =>
            rw [hfu] at h
            dsimp only at h
            cases hcg : u.currentGroupId with
            | none => rw [hcg] at h; cases h
            | some cg =>
              rw [hcg] at h
              dsimp only at h
              by_cases hgp : toString cg ≠ gp
              · rw [if_pos hgp] at h; cases h
              · rw [if_neg hgp] at h
                injection h with h1 h2
                subst h1
                exact ⟨sub, u, rfl, hfu, rfl⟩
  · intro db2 now raw db3 m hIn
    cases raw with
    | none => simp [handleIncoming] at hIn
    | some f =>
      simp only [handleIncoming] at hIn
      split at hIn
      · simp at hIn
      · split at hIn
        · simp at hIn
        · split at hIn
          · simp at hIn
          · simp only [Prod.mk.injEq] at hIn
            obtain ⟨-, hm⟩ := hIn
            injection hm with hm2
            injection hm2 with hm3
            subst hm3
            exact ⟨rfl, rfl⟩

/-- The connection state of `Ada`'s chat session. -/
def csAda : ConnState := { userId := 0, gid := 1, senderName := "Ada" }

/-- A well-formed inbound chat frame. -/
def inHello : InFrame := { type := some "message", text := some " hello " }

/-- The stored chat message created for `inHello` at time 7. -/
def storedHello : GroupMessage :=
  { id := 5, groupId := 1, sender := 0, text := "hello", createdAt := 7 }

/-- The broadcast wire message produced for `inHello`. -/
def wireHello : WireMessage :=
  { id := 5, text := "hello", createdAt := 7, senderId := some 0, senderName := "Ada" }

/-- The store after `inHello` is appended to `chatDB`. -/
def chatDB2 : DB :=
  { users := chatDB.users, groups := chatDB.groups,
    messages := chatDB.messages ++ [storedHello],
    universities := chatDB.universities, nextId := 6 }

/-- C10 witness: `Ada`'s name is fixed at setup and reused on a concrete
relayed message. -/
theorem sender_name_fixed_at_setup_witness :
    (∃ sub u, verifyEx "tok" = some sub ∧ findUser chatDB sub = some u ∧
      csAda.senderName = mkSenderName u.firstName u.lastName) ∧
    (wireHello.senderName = csAda.senderName ∧ wireHello.senderId = some csAda.userId) :=
  ⟨(sender_name_fixed_at_setup verifyEx true chatDB "tok" "1" csAda
      [.history [wireHi]] (by decide)).1,
   (sender_name_fixed_at_setup verifyEx true chatDB "tok" "1" csAda
      [.history [wireHi]] (by decide)).2.2
     chatDB 7 (some inHello) chatDB2 wireHello (by decide)⟩

/-! ## C7 -/

/-- C7: createGroup rejects with a `Validation` (HTTP 400) error whenever
interest and module are both provided or both absent (a blank interest counts
as absent), for a requester who is not already in a group; and every group in
a store reachable from a consistent one satisfies exactly-one-of. -/
theorem create_exactly_one_of (db : DB) (h : Consistent db) :
    (∀ aid p, (getOrCreateUser db aid).1.currentGroupId = none →
      isNonEmptyString p.interest = p.module.isSome →
      ∃ msg, (createGroup db (some aid) p).1 = .error 400 msg) ∧
    (∀ ops, ∀ g ∈ (applyOps db ops).groups, groupExactlyOne g = true) := by
  constructor
  · intro aid p hnone hEq
    simp only [createGroup]
    rw [if_neg (by simp [hnone])]
    cases hval : validateCreatePayload (getOrCreateUser db aid).2 (getOrCreateUser db aid).1 p with
    | error e =>
      obtain ⟨msg, rfl⟩ := validateCreatePayload_error_status hval
      exact ⟨msg, rfl⟩
    | ok d =>
      have hne := (validateCreatePayload_ok_flags hval).1
      rw [hEq] at hne
      simp at hne
  · intro ops g hg
    obtain ⟨_, _, _, _, _, _, h7⟩ := consistent_applyOps db ops h
    exact h7 g hg

/-- A createGroup body carrying both an interest and a module. -/
def pBoth : CreateGroupPayload :=
  { name := some "S", startAt := some 0, endAt := some 10, lat := some 1, lng := some 2,
    interest := some "chess",
    module := some { moduleId := some "m1", name := some "M", course := some "C", university := none } }

/-- A createGroup body with a whitespace-only interest and no module. -/
def pNeitherBlank : CreateGroupPayload :=
  { name := some "S", startAt := some 0, endAt := some 10, lat := some 1, lng := some 2,
    interest := some "   ", module := none }

/-- The group document `alice`'s createGroup stores in `aliceDB`. -/
def gStudy : Group :=
  { id := 1, name := "Study", creator := 0, members := [0], startAt := 0, endAt := 10,
    lat := 1, lng := 2, interest := some "maths", module := none }

/-- C7 witness: both-provided and blank-interest-only bodies are rejected
with 400, and the group `alice` created satisfies exactly-one-of. -/
theorem create_exactly_one_of_witness :
    (∃ msg, (createGroup emptyDB (some "dora") pBoth).1 = .error 400 msg) ∧
    (∃ msg, (createGroup emptyDB (some "dora") pNeitherBlank).1 = .error 400 msg) ∧
    groupExactlyOne gStudy = true :=
  ⟨(create_exactly_one_of emptyDB (by decide)).1 "dora" pBoth (by decide) (by decide),
   (create_exactly_one_of emptyDB (by decide)).1 "dora" pNeitherBlank (by decide) (by decide),
   (create_exactly_one_of emptyDB (by decide)).2 [Op.create (some "alice") pInterest]
     gStudy (by decide)⟩

/-! ## C8 -/

/-- A cycle that finds nothing to delete leaves the store untouched. -/
theorem cleanupGroups_of_deletedIds_nil {db : DB} {now : Int}
    (h : deletedIds db now = []) : cleanupGroups db now = db := by
  simp [cleanupGroups, h]

/-- C8: the reaper is idempotent — a second cycle right after a completed
one, with no store change in between and no clock advance past any surviving
group's `endAt`, returns the store unchanged. -/
theorem reaper_idempotent (db : DB) (now now2 : Int)
    (h2 : ∀ g ∈ (cleanupGroups db now).groups, ¬(g.endAt < now2)) :
    cleanupGroups (cleanupGroups db now) now2 = cleanupGroups db now := by
  have hsur : ∀ g ∈ (cleanupGroups db now).groups, reapCond now2 g = false := by
    intro g hg
    have hend := h2 g hg
    have hmem : g.members.isEmpty = false := by
      by_contra hx
      rw [Bool.not_eq_false] at hx
      have hrc : reapCond now g = true := by simp [reapCond, hx]
      revert hg
      simp only [cleanupGroups]
      split
      · rename_i hempty
        intro hg
        have hin : g.id ∈ deletedIds db now :=
          List.mem_map.2 ⟨g, List.mem_filter.2 ⟨hg, hrc⟩, rfl⟩
        rw [List.isEmpty_iff.1 hempty] at hin
        cases hin
      · intro hg
        rcases List.mem_filter.1 hg with ⟨hgm, hcond⟩
        have hin : g.id ∈ deletedIds db now :=
          List.mem_map.2 ⟨g, List.mem_filter.2 ⟨hgm, hrc⟩, rfl⟩
        simp [hin] at hcond
    simp [reapCond, hmem, hend]
  have hnil : deletedIds (cleanupGroups db now) now2 = [] := by
    unfold deletedIds
    rw [List.map_eq_nil_iff]
    rw [List.filter_eq_nil_iff]
    intro g hg
    simp [hsur g hg]
  exact cleanupGroups_of_deletedIds_nil hnil

/-- C8 witness: the second cycle on `reaperDB` is a no-op. -/
theorem reaper_idempotent_witness :
    cleanupGroups (cleanupGroups reaperDB 6) 6 = cleanupGroups reaperDB 6 :=
  reaper_idempotent reaperDB 6 6 (by decide)

/-! ## C9 -/

/-- One socket-registry mutation. -/
inductive RegOp where
  | reg (gid : String) (sock : Nat)
  | unreg (gid : String) (sock : Nat)
deriving Repr, DecidableEq

/-- Apply one registry mutation. -/
def applyRegOp (reg : Registry) : RegOp → Registry
  | .reg gid sock => registerSocket gid sock reg
  | .unreg gid sock => unregisterSocket gid sock reg

/-- Apply a sequence of registry mutations. -/
def applyRegOps (ops : List RegOp) (reg : Registry) : Registry :=
  ops.foldl applyRegOp reg

/-- Well-formedness of the socket registry: unique group keys and no empty
connection sets. -/
def RegWF (reg : Registry) : Prop :=
  (reg.map (fun e => e.1)).Nodup ∧ ∀ e ∈ reg, e.2 ≠ []

instance (reg : Registry) : Decidable (RegWF reg) := by
  unfold RegWF
  infer_instance

theorem regWF_registerSocket (reg : Registry) (gid : String) (sock : Nat) (h : RegWF reg) :
    RegWF (registerSocket gid sock reg) := by
  obtain ⟨h1, h2⟩ := h
  unfold registerSocket
  cases hl : regLookup reg gid with
  | none =>
    dsimp only
    have hnot : ∀ e ∈ reg, e.1 ≠ gid := by
      intro e he
      unfold regLookup at hl
      rw [Option.map_eq_none'] at hl
      have := List.find?_eq_none.1 hl e he
      simpa using this
    constructor
    · rw [List.map_append]
      rw [List.nodup_append]
      refine ⟨h1, List.nodup_singleton _, ?_⟩
      intro a ha hb
      rcases List.mem_map.1 ha with ⟨e, he, rfl⟩
      rcases List.mem_singleton.1 hb with hb
      exact hnot e he hb
    · intro e he
      rcases List.mem_append.1 he with he | he
      · exact h2 e he
      · rcases List.mem_singleton.1 he with rfl
        simp
  | some s =>
    dsimp only
    constructor
    · rw [List.map_map]
      have heq : reg.map ((fun e : String × List Nat => e.1) ∘ (fun e =>
          if e.1 = gid then (e.1, setAdd e.2 sock) else e)) = reg.map (fun e => e.1) := by
        refine List.map_congr_left ?_
        intro e _
        by_cases hk : e.1 = gid <;> simp [hk, Function.comp]
      rw [heq]
      exact h1
    · intro e he
      rcases List.mem_map.1 he with ⟨y, hy, rfl⟩
      by_cases hk : y.1 = gid
      · rw [if_pos hk]
        show setAdd y.2 sock ≠ []
        unfold setAdd
        split
        · exact h2 y hy
        · simp
      · rw [if_neg hk]
        exact h2 y hy

theorem regWF_unregisterSocket (reg : Registry) (gid : String) (sock : Nat) (h : RegWF reg) :
    RegWF (unregisterSocket gid sock reg) := by
  obtain ⟨h1, h2⟩ := h
  simp only [unregisterSocket]
  cases hl : regLookup reg gid with
  | none => exact ⟨h1, h2⟩
  | some s =>
    dsimp only
    split
    · constructor
      · exact List.Nodup.sublist ((List.filter_sublist _).map _) h1
      · intro e he
        exact h2 e (List.mem_of_mem_filter he)
    · rename_i hne
      constructor
      · rw [List.map_map]
        have heq : reg.map ((fun e : String × List Nat => e.1) ∘ (fun e =>
            if e.1 = gid then (e.1, s.filter (fun x => x ≠ sock)) else e))
            = reg.map (fun e => e.1) := by
          refine List.map_congr_left ?_
          intro e _
          by_cases hk : e.1 = gid <;> simp [hk, Function.comp]
        rw [heq]
        exact h1
      · intro e he
        rcases List.mem_map.1 he with ⟨y, hy, rfl⟩
        by_cases hk : y.1 = gid
        · rw [if_pos hk]
          intro hx
          have hx2 : s.filter (fun x => x ≠ sock) = [] := hx
          exact hne (by rw [hx2]; rfl)
        · rw [if_neg hk]
          exact h2 y hy

theorem regWF_applyRegOps (ops : List RegOp) (reg : Registry) (h : RegWF reg) :
    RegWF (applyRegOps ops reg) := by
  induction ops generalizing reg with
  | nil => exact h
  | cons op rest ih =>
    cases op with
    | reg gid sock => exact ih _ (regWF_registerSocket _ gid sock h)
    | unreg gid sock => exact ih _ (regWF_unregisterSocket _ gid sock h)

/-- C9: from the empty registry, any sequence of register/unregister calls
yields a registry whose entries all hold non-empty connection sets; registering
an already-present connection leaves the registry unchanged; and unregistering
the last connection of a group removes that group's entry entirely. -/
theorem socket_registry_contract :
    (∀ ops, ∀ e ∈ applyRegOps ops [], e.2 ≠ []) ∧
    (∀ reg gid sock s, RegWF reg → regLookup reg gid = some s → sock ∈ s →
      registerSocket gid sock reg = reg) ∧
    (∀ reg gid sock, regLookup reg gid = some [sock] →
      regLookup (unregisterSocket gid sock reg) gid = none ∧
      ∀ e ∈ unregisterSocket gid sock reg, e.1 ≠ gid) := by
  refine ⟨?_, ?_, ?_⟩
  · intro ops e he
    exact (regWF_applyRegOps ops [] ⟨List.nodup_nil, by simp⟩).2 e he
  · intro reg gid sock s hwf hl hs
    obtain ⟨h1, h2⟩ := hwf
    unfold registerSocket
    rw [hl]
    dsimp only
    have hmap : reg.map (fun e => if e.1 = gid then (e.1, setAdd e.2 sock) else e)
        = reg.map (fun e => e) := by
      refine List.map_congr_left ?_
      intro e he
      by_cases hk : e.1 = gid
      · unfold regLookup at hl
        cases hf : reg.find? (fun e => e.1 == gid) with
        | none => rw [hf] at hl; cases hl
        | some f =>
          rw [hf] at hl
          have hf2 : f.2 = s := by simpa using hl
          have hfmem : f ∈ reg := List.mem_of_find?_eq_some hf
          have hfkey : f.1 = gid := by simpa using List.find?_some hf
          have hef : e = f := List.inj_on_of_nodup_map h1 he hfmem (by rw [hk, hfkey])
          subst hef
          rw [if_pos hk]
          unfold setAdd
          rw [if_pos (show e.2.contains sock = true by rw [hf2]; simpa using hs)]
      · rw [if_neg hk]
    rw [hmap, List.map_id']
  · intro reg gid sock hl
    simp only [unregisterSocket]
    rw [hl]
    dsimp only
    have hfe : ([sock].filter (fun x => x ≠ sock)) = [] := by simp
    rw [hfe]
    rw [if_pos (by rfl)]
    constructor
    · unfold regLookup
      rw [Option.map_eq_none']
      rw [List.find?_eq_none]
      intro e he
      rcases List.mem_filter.1 he with ⟨-, hcond⟩
      simpa using hcond
    · intro e he
      rcases List.mem_filter.1 he with ⟨-, hcond⟩
      simpa using hcond

/-- C9 witness: concrete register/unregister behaviour on a one-entry
registry reachable from the empty one. -/
theorem socket_registry_contract_witness :
    (("g", [1]) : String × List Nat).2 ≠ [] ∧
    registerSocket "g" 1 [("g", [1])] = [("g", [1])] ∧
    regLookup (unregisterSocket "g" 1 [("g", [1])]) "g" = none :=
  ⟨socket_registry_contract.1 [RegOp.reg "g" 1] ("g", [1]) (by decide),
   socket_registry_contract.2.1 [("g", [1])] "g" 1 [1] (by decide) (by decide) (by decide),
   (socket_registry_contract.2.2 [("g", [1])] "g" 1 (by decide)).1⟩

end StudyDino
